import Mathlib

/-!
Verification of the selection heuristics of the VulkanHelper repository
(`VulkanTools.hpp`): physical-device rating and selection, swapchain
surface-format / present-mode / image-extent selection, and the
queue-family index lookups.  Opaque Vulkan handles are replaced by records
carrying exactly the attributes the code queries; `uint32` arithmetic is
modelled as `Nat` with explicit reduction modulo `2^32`.
-/

namespace VulkanHelper

/-- `2^32`, the modulus of `uint32` arithmetic. -/
def U32 : Nat := 4294967296

/-- Reduction modulo `2^32`: the effect of storing into a `uint32`. -/
def u32 (n : Nat) : Nat := n % U32

/-- `VK_QUEUE_GRAPHICS_BIT` (0x1). -/
def VK_QUEUE_GRAPHICS_BIT : Nat := 1

/-- `VK_QUEUE_COMPUTE_BIT` (0x2). -/
def VK_QUEUE_COMPUTE_BIT : Nat := 2

/-- `VK_KHR_SWAPCHAIN_EXTENSION_NAME`. -/
def VK_KHR_SWAPCHAIN_EXTENSION_NAME : String := "VK_KHR_swapchain"

/-- `VK_FORMAT_B8G8R8A8_SRGB` (Vulkan enum value 50). -/
def VK_FORMAT_B8G8R8A8_SRGB : Nat := 50

/-- `VK_COLOR_SPACE_SRGB_NONLINEAR_KHR` (Vulkan enum value 0). -/
def VK_COLOR_SPACE_SRGB_NONLINEAR_KHR : Nat := 0

/-- `VK_PRESENT_MODE_MAILBOX_KHR` (Vulkan enum value 1). -/
def VK_PRESENT_MODE_MAILBOX_KHR : Nat := 1

/-- `VK_PRESENT_MODE_FIFO_KHR` (Vulkan enum value 2). -/
def VK_PRESENT_MODE_FIFO_KHR : Nat := 2

/-- `UINT32_MAX`, the sentinel the surface reports for an undefined extent. -/
def UINT32_MAX : Nat := 4294967295

/-- One queue family of an adapter: its `VkQueueFamilyProperties::queueFlags`
bitmask, together with the answer `vkGetPhysicalDeviceSurfaceSupportKHR`
gives for this family and the (fixed, optional) target surface. -/
structure QueueFamily where
  queueFlags : Nat
  presentSupport : Bool
deriving DecidableEq

/-- A physical device (adapter), flattened to the attributes
`RatePhysicalDevice` queries: the device limits, the memory heap count,
the `multiViewport` feature bit, the queue-family list, the device
extension-name list, and the number of present modes and surface formats
reported for the target surface. -/
structure PhysicalDevice where
  maxColorAttachments : Nat
  maxDescriptorSetInputAttachments : Nat
  maxImageDimension2D : Nat
  maxImageArrayLayers : Nat
  maxViewports : Nat
  memoryHeapCount : Nat
  multiViewport : Bool
  queueFamilies : List QueueFamily
  extensions : List String
  presentModeCount : Nat
  surfaceFormatCount : Nat
deriving DecidableEq

/-- A `VkSurfaceFormatKHR`: pixel format and color space, as enum values. -/
structure VkSurfaceFormatKHR where
  format : Nat
  colorSpace : Nat
deriving DecidableEq

/-- A `VkExtent2D`. -/
structure VkExtent2D where
  width : Nat
  height : Nat
deriving DecidableEq

/-- The fields of `VkSurfaceCapabilitiesKHR` that
`SelectSwapchainSurfaceImageExtent` reads. -/
structure VkSurfaceCapabilitiesKHR where
  currentExtent : VkExtent2D
  minImageExtent : VkExtent2D
  maxImageExtent : VkExtent2D
deriving DecidableEq

/-- The queue-family scan of `RatePhysicalDevice`
(`for(queue : queues){ if(GRAPHICS) score += 100000; if(COMPUTE) score += 50000; }`),
accumulating into a `uint32` score. -/
def scanQueueScore : Nat → List QueueFamily → Nat
  | score, [] => score
  | score, q :: rest =>
      let s1 := if q.queueFlags &&& VK_QUEUE_GRAPHICS_BIT != 0 then u32 (score + 100000) else score
      let s2 := if q.queueFlags &&& VK_QUEUE_COMPUTE_BIT != 0 then u32 (s1 + 50000) else s1
      scanQueueScore s2 rest

/-- The presentation-support scan of `RatePhysicalDevice`:
`uint i = 0; VkBool32 presentationSupported;` followed by
`for(queue : queues){ vkGetPhysicalDeviceSurfaceSupportKHR(..., i, ..., &flag); if(flag) break; else i++; }`.
The carried `Option Bool` is the flag variable; `none` models its
uninitialized state before the first assignment.  Returns the final `i`
and the final state of the flag. -/
def presentScanGo : List QueueFamily → Nat → Option Bool → Nat × Option Bool
  | [], i, flag => (i, flag)
  | q :: rest, i, _ =>
      if q.presentSupport then (i, some q.presentSupport)
      else presentScanGo rest (i + 1) (some q.presentSupport)

/-- `true` iff the post-loop check
`if(i+1 == queues.size() && !presentationSupported)` evaluates its second
operand (`&&` short-circuits, so only when `i+1 == queues.size()`) while
the flag variable is still uninitialized. -/
def presentCheckReadsUninit (queues : List QueueFamily) : Bool :=
  ((presentScanGo queues 0 none).1 + 1 == queues.length) &&
    ((presentScanGo queues 0 none).2).isNone

/-- `RatePhysicalDevice`, line by line.  `hasSurface` is whether a surface
handle was supplied; `junk` is the indeterminate value the uninitialized
`presentationSupported` flag would yield if it were ever read before being
assigned (theorems quantify over it, and it is provably irrelevant). -/
def ratePhysicalDevice (dev : PhysicalDevice) (hasSurface : Bool) (junk : Bool) : Nat :=
  let score := 0
  let score := u32 (score + dev.maxColorAttachments * 100)
  let score := u32 (score + dev.maxDescriptorSetInputAttachments * 100)
  let score := u32 (score + dev.maxImageDimension2D * 1000)
  let score := u32 (score + dev.maxImageArrayLayers * 10)
  let score := u32 (score + dev.maxViewports * 500)
  let score := u32 (score + dev.memoryHeapCount * 1000)
  let score := if dev.multiViewport then u32 (score + 500) else score
  let score := scanQueueScore score dev.queueFamilies
  let score :=
    if hasSurface then
      let r := presentScanGo dev.queueFamilies 0 none
      if r.1 + 1 == dev.queueFamilies.length && !(r.2.getD junk) then 0
      else u32 (score + 110000)
    else score
  let swapchainExtensionAvailable :=
    dev.extensions.any (fun e => e == VK_KHR_SWAPCHAIN_EXTENSION_NAME)
  let score := if !swapchainExtensionAvailable then 0 else score
  let score :=
    if hasSurface then
      let score := if dev.presentModeCount == 0 then 0 else score
      let score := if dev.surfaceFormatCount == 0 then 0 else score
      score
    else score
  score

/-- The selection loop of `SelectBestPhysicalDevice`:
`score = 0; VkPhysicalDevice selected;` then for each candidate
`if(score < newScore){ score = newScore; selected = device; }`.
`none` models the still-uninitialized `selected`. -/
def selectScanLoop (hs junk : Bool) :
    List PhysicalDevice → Nat → Option PhysicalDevice → Nat × Option PhysicalDevice
  | [], score, sel => (score, sel)
  | d :: rest, score, sel =>
      if score < ratePhysicalDevice d hs junk then
        selectScanLoop hs junk rest (ratePhysicalDevice d hs junk) (some d)
      else selectScanLoop hs junk rest score sel

/-- `SelectBestPhysicalDevice` over an already-enumerated device list.
`none` is the `ASSERT(score != 0, "No suitable Physical Device found on host")`
abort path. -/
def selectBestPhysicalDevice (devices : List PhysicalDevice) (hs junk : Bool) :
    Option PhysicalDevice :=
  let r := selectScanLoop hs junk devices 0 none
  if r.1 == 0 then none else r.2

/-- The preferred surface format of `SelectSwapchainSurfaceFormat`. -/
def preferredSurfaceFormat : VkSurfaceFormatKHR :=
  { format := VK_FORMAT_B8G8R8A8_SRGB, colorSpace := VK_COLOR_SPACE_SRGB_NONLINEAR_KHR }

/-- The search loop of `SelectSwapchainSurfaceFormat`: return the first
entry matching the preferred (format, colorSpace) pair. -/
def findPreferredFormat : List VkSurfaceFormatKHR → Option VkSurfaceFormatKHR
  | [] => none
  | f :: rest =>
      if f.format == VK_FORMAT_B8G8R8A8_SRGB &&
          f.colorSpace == VK_COLOR_SPACE_SRGB_NONLINEAR_KHR then some f
      else findPreferredFormat rest

/-- `SelectSwapchainSurfaceFormat`: the loop, then the `return formats[0]`
fall-through (`none` models the out-of-bounds access on an empty list). -/
def selectSwapchainSurfaceFormat (formats : List VkSurfaceFormatKHR) :
    Option VkSurfaceFormatKHR :=
  match findPreferredFormat formats with
  | some f => some f
  | none => formats.head?

/-- `SelectSwapchainSurfacePresentMode`: return `MAILBOX` as soon as it is
seen, else fall through to `FIFO`. -/
def selectSwapchainSurfacePresentMode : List Nat → Nat
  | [] => VK_PRESENT_MODE_FIFO_KHR
  | m :: rest =>
      if m == VK_PRESENT_MODE_MAILBOX_KHR then m
      else selectSwapchainSurfacePresentMode rest

/-- `SelectSwapchainSurfaceImageExtent`: `w`/`h` are the window pixel size
reported by `SDL_GetWindowSize` (already cast to `uint32`). -/
def selectSwapchainSurfaceImageExtent (w h : Nat) (caps : VkSurfaceCapabilitiesKHR) :
    VkExtent2D :=
  if caps.currentExtent.width != UINT32_MAX then caps.currentExtent
  else
    { width := Nat.max caps.minImageExtent.width (Nat.min caps.maxImageExtent.width w),
      height := Nat.max caps.minImageExtent.height (Nat.min caps.maxImageExtent.height h) }

/-- The loop of `GetPhysicalDeviceQueueFamilyIndex`:
`queueIdx = -1; for(i...) if(queueFamilyProperties[i].queueFlags & flag) queueIdx = i;`
(no break, so later matches overwrite earlier ones). -/
def queueFamilyIndexLoop (flag : Nat) : List QueueFamily → Nat → Int → Int
  | [], _, queueIdx => queueIdx
  | q :: rest, i, queueIdx =>
      queueFamilyIndexLoop flag rest (i + 1)
        (if q.queueFlags &&& flag != 0 then (i : Int) else queueIdx)

/-- `GetPhysicalDeviceQueueFamilyIndex` (the overload taking the
already-enumerated property list). -/
def getPhysicalDeviceQueueFamilyIndex (props : List QueueFamily) (flag : Nat) : Int :=
  queueFamilyIndexLoop flag props 0 (-1)

/-- The loop of `GetPhysicalDeviceSurfaceSupportQueueIndex`:
stops (breaks) at the first presentation-supporting family. -/
def surfaceSupportIndexLoop : List QueueFamily → Nat → Int
  | [], _ => -1
  | q :: rest, i =>
      if q.presentSupport then (i : Int) else surfaceSupportIndexLoop rest (i + 1)

/-- `GetPhysicalDeviceSurfaceSupportQueueIndex` over the enumerated
queue-family list of the device (paired with the fixed surface). -/
def getPhysicalDeviceSurfaceSupportQueueIndex (queues : List QueueFamily) : Int :=
  surfaceSupportIndexLoop queues 0

/-! ### Concrete devices used as test inputs -/

/-- A device with no attributes at all: every limit zero, no queue family,
no extension.  Its score is 0 (no swapchain extension). -/
def devZero : PhysicalDevice :=
  { maxColorAttachments := 0, maxDescriptorSetInputAttachments := 0,
    maxImageDimension2D := 0, maxImageArrayLayers := 0, maxViewports := 0,
    memoryHeapCount := 0, multiViewport := false,
    queueFamilies := [], extensions := [], presentModeCount := 0,
    surfaceFormatCount := 0 }

/-- A minimal usable device: one graphics-capable queue family (which also
supports presentation) and the swapchain extension. -/
def devOneGfx : PhysicalDevice :=
  { maxColorAttachments := 0, maxDescriptorSetInputAttachments := 0,
    maxImageDimension2D := 0, maxImageArrayLayers := 0, maxViewports := 0,
    memoryHeapCount := 0, multiViewport := false,
    queueFamilies := [{ queueFlags := 1, presentSupport := true }],
    extensions := ["VK_KHR_swapchain"], presentModeCount := 1,
    surfaceFormatCount := 1 }

/-- `devOneGfx` with its graphics queue family duplicated; otherwise
identical attribute for attribute. -/
def devTwoGfx : PhysicalDevice :=
  { maxColorAttachments := 0, maxDescriptorSetInputAttachments := 0,
    maxImageDimension2D := 0, maxImageArrayLayers := 0, maxViewports := 0,
    memoryHeapCount := 0, multiViewport := false,
    queueFamilies := [{ queueFlags := 1, presentSupport := true },
                      { queueFlags := 1, presentSupport := true }],
    extensions := ["VK_KHR_swapchain"], presentModeCount := 1,
    surfaceFormatCount := 1 }

/-- A device whose single (graphics) queue family does **not** support
presentation to the target surface, but which has the swapchain extension
and non-empty present-mode and format lists. -/
def devNoPresent : PhysicalDevice :=
  { maxColorAttachments := 0, maxDescriptorSetInputAttachments := 0,
    maxImageDimension2D := 0, maxImageArrayLayers := 0, maxViewports := 0,
    memoryHeapCount := 0, multiViewport := false,
    queueFamilies := [{ queueFlags := 1, presentSupport := false }],
    extensions := ["VK_KHR_swapchain"], presentModeCount := 1,
    surfaceFormatCount := 1 }

/-! ### Present-mode selection (C7) -/

/-- `SelectSwapchainSurfacePresentMode` returns `MAILBOX` exactly when it
occurs in the list, `FIFO` otherwise. -/
theorem selectPresentMode_eq (modes : List Nat) :
    selectSwapchainSurfacePresentMode modes =
      if VK_PRESENT_MODE_MAILBOX_KHR ∈ modes then VK_PRESENT_MODE_MAILBOX_KHR
      else VK_PRESENT_MODE_FIFO_KHR := by
  induction modes with
  | nil => simp [selectSwapchainSurfacePresentMode]
  | cons m rest ih =>
      by_cases hm : m = VK_PRESENT_MODE_MAILBOX_KHR
      · subst hm; simp [selectSwapchainSurfacePresentMode]
      · have hb : (m == VK_PRESENT_MODE_MAILBOX_KHR) = false := by
          simpa using hm
        have hmem : (VK_PRESENT_MODE_MAILBOX_KHR ∈ m :: rest) ↔
            VK_PRESENT_MODE_MAILBOX_KHR ∈ rest := by
          constructor
          · intro hin
            rcases List.mem_cons.mp hin with h1 | h1
            · exact absurd h1.symm hm
            · exact h1
          · exact fun hin => List.mem_cons_of_mem m hin
        simp [selectSwapchainSurfacePresentMode, hb, ih, hmem]

/-- C7: for every list of present modes, `SelectSwapchainSurfacePresentMode`
returns the low-latency mailbox mode if it is present anywhere in the list
and the first-in-first-out fallback otherwise, and the result is invariant
under permutation of the input list. -/
theorem selectSwapchainSurfacePresentMode_spec (modes : List Nat) :
    selectSwapchainSurfacePresentMode modes =
      (if VK_PRESENT_MODE_MAILBOX_KHR ∈ modes then VK_PRESENT_MODE_MAILBOX_KHR
       else VK_PRESENT_MODE_FIFO_KHR) ∧
    ∀ modes2 : List Nat, modes.Perm modes2 →
      selectSwapchainSurfacePresentMode modes = selectSwapchainSurfacePresentMode modes2 := by
  refine ⟨selectPresentMode_eq modes, fun modes2 hp => ?_⟩
  simp only [selectPresentMode_eq, hp.mem_iff]

/-- Witness for C7: a list holding immediate (0) and mailbox (1) modes is a
permutation of its reversal, and selection agrees on the two orders. -/
theorem selectSwapchainSurfacePresentMode_spec_witness :
    ([0, 1] : List Nat).Perm [1, 0] ∧
    selectSwapchainSurfacePresentMode [0, 1] = selectSwapchainSurfacePresentMode [1, 0] :=
  ⟨by decide, (selectSwapchainSurfacePresentMode_spec [0, 1]).2 [1, 0] (by decide)⟩

/-! ### Surface-format selection (C6) -/

/-- The match test of the format loop succeeds exactly on the preferred
pair. -/
theorem preferredFormat_test (f : VkSurfaceFormatKHR) :
    (f.format == VK_FORMAT_B8G8R8A8_SRGB &&
      f.colorSpace == VK_COLOR_SPACE_SRGB_NONLINEAR_KHR) = true ↔
    f = preferredSurfaceFormat := by
  cases f
  simp [preferredSurfaceFormat, VK_FORMAT_B8G8R8A8_SRGB,
    VK_COLOR_SPACE_SRGB_NONLINEAR_KHR]

/-- If the preferred pair occurs in the list, the loop returns it. -/
theorem findPreferredFormat_of_mem (l : List VkSurfaceFormatKHR)
    (h : preferredSurfaceFormat ∈ l) :
    findPreferredFormat l = some preferredSurfaceFormat := by
  induction l with
  | nil => cases h
  | cons f rest ih =>
      by_cases hf : f = preferredSurfaceFormat
      · subst hf
        simp [findPreferredFormat, (preferredFormat_test _).mpr rfl]
      · have hb : (f.format == VK_FORMAT_B8G8R8A8_SRGB &&
            f.colorSpace == VK_COLOR_SPACE_SRGB_NONLINEAR_KHR) = false := by
          rcases hcond : (f.format == VK_FORMAT_B8G8R8A8_SRGB &&
            f.colorSpace == VK_COLOR_SPACE_SRGB_NONLINEAR_KHR) with _ | _
          · rfl
          · exact absurd ((preferredFormat_test f).mp hcond) hf
        have hmem : preferredSurfaceFormat ∈ rest := by
          rcases List.mem_cons.mp h with h1 | h1
          · exact absurd h1.symm hf
          · exact h1
        simp [findPreferredFormat, hb, ih hmem]

/-- If the preferred pair does not occur in the list, the loop fails. -/
theorem findPreferredFormat_of_not_mem (l : List VkSurfaceFormatKHR)
    (h : preferredSurfaceFormat ∉ l) :
    findPreferredFormat l = none := by
  induction l with
  | nil => rfl
  | cons f rest ih =>
      have hf : f ≠ preferredSurfaceFormat := fun he => h (he ▸ List.mem_cons_self f rest)
      have hb : (f.format == VK_FORMAT_B8G8R8A8_SRGB &&
          f.colorSpace == VK_COLOR_SPACE_SRGB_NONLINEAR_KHR) = false := by
        rcases hcond : (f.format == VK_FORMAT_B8G8R8A8_SRGB &&
          f.colorSpace == VK_COLOR_SPACE_SRGB_NONLINEAR_KHR) with _ | _
        · rfl
        · exact absurd ((preferredFormat_test f).mp hcond) hf
      have hrest : preferredSurfaceFormat ∉ rest := fun hm => h (List.mem_cons_of_mem f hm)
      simp [findPreferredFormat, hb, ih hrest]

/-- C6: for every non-empty format list, `SelectSwapchainSurfaceFormat`
returns the preferred (`B8G8R8A8_SRGB`, `SRGB_NONLINEAR`) pair whenever it
occurs anywhere in the list, otherwise returns the first element of the
list unchanged; in both cases a result exists. -/
theorem selectSwapchainSurfaceFormat_spec (formats : List VkSurfaceFormatKHR)
    (h : formats ≠ []) :
    (preferredSurfaceFormat ∈ formats →
       selectSwapchainSurfaceFormat formats = some preferredSurfaceFormat) ∧
    (preferredSurfaceFormat ∉ formats →
       selectSwapchainSurfaceFormat formats = formats.head?) ∧
    (selectSwapchainSurfaceFormat formats).isSome = true := by
  refine ⟨fun hmem => ?_, fun hnot => ?_, ?_⟩
  · simp [selectSwapchainSurfaceFormat, findPreferredFormat_of_mem formats hmem]
  · simp [selectSwapchainSurfaceFormat, findPreferredFormat_of_not_mem formats hnot]
  · rcases hfind : findPreferredFormat formats with _ | f
    · cases formats with
      | nil => exact absurd rfl h
      | cons x rest => simp [selectSwapchainSurfaceFormat, hfind]
    · simp [selectSwapchainSurfaceFormat, hfind]

/-- Witness for C6: the single-element list `[(R8G8B8A8_SRGB, 1)]` lacks
the preferred pair and selection returns its head. -/
theorem selectSwapchainSurfaceFormat_spec_witness :
    ([({ format := 43, colorSpace := 1 } : VkSurfaceFormatKHR)] ≠ []) ∧
    ((preferredSurfaceFormat ∈ [({ format := 43, colorSpace := 1 } : VkSurfaceFormatKHR)] →
       selectSwapchainSurfaceFormat [{ format := 43, colorSpace := 1 }] =
         some preferredSurfaceFormat) ∧
     (preferredSurfaceFormat ∉ [({ format := 43, colorSpace := 1 } : VkSurfaceFormatKHR)] →
       selectSwapchainSurfaceFormat [{ format := 43, colorSpace := 1 }] =
         [({ format := 43, colorSpace := 1 } : VkSurfaceFormatKHR)].head?) ∧
     (selectSwapchainSurfaceFormat [{ format := 43, colorSpace := 1 }]).isSome = true) :=
  ⟨by decide, selectSwapchainSurfaceFormat_spec [{ format := 43, colorSpace := 1 }] (by decide)⟩

/-! ### Image-extent selection (C8) -/

/-- The capability record of the spec's clamping example: undefined current
extent, bounds min (1, 1) and max (1024, 1024). -/
def capsUndef : VkSurfaceCapabilitiesKHR :=
  { currentExtent := { width := 4294967295, height := 0 },
    minImageExtent := { width := 1, height := 1 },
    maxImageExtent := { width := 1024, height := 1024 } }

/-- C8: for every window size and surface capability record with ordered
bounds, `SelectSwapchainSurfaceImageExtent` returns the current extent
unchanged whenever its width is not the `UINT32_MAX` sentinel; otherwise
it returns the window size with each dimension independently clamped into
the inclusive range between the minimum and maximum image extents. -/
theorem selectSwapchainSurfaceImageExtent_spec (w h : Nat)
    (caps : VkSurfaceCapabilitiesKHR)
    (hw : caps.minImageExtent.width ≤ caps.maxImageExtent.width)
    (hh : caps.minImageExtent.height ≤ caps.maxImageExtent.height) :
    (caps.currentExtent.width ≠ UINT32_MAX →
       selectSwapchainSurfaceImageExtent w h caps = caps.currentExtent) ∧
    (caps.currentExtent.width = UINT32_MAX →
       selectSwapchainSurfaceImageExtent w h caps =
         { width := Nat.max caps.minImageExtent.width (Nat.min caps.maxImageExtent.width w),
           height := Nat.max caps.minImageExtent.height (Nat.min caps.maxImageExtent.height h) } ∧
       caps.minImageExtent.width ≤ (selectSwapchainSurfaceImageExtent w h caps).width ∧
       (selectSwapchainSurfaceImageExtent w h caps).width ≤ caps.maxImageExtent.width ∧
       caps.minImageExtent.height ≤ (selectSwapchainSurfaceImageExtent w h caps).height ∧
       (selectSwapchainSurfaceImageExtent w h caps).height ≤ caps.maxImageExtent.height) := by
  constructor
  · intro hne
    have hb : (caps.currentExtent.width != UINT32_MAX) = true := by simpa using hne
    simp [selectSwapchainSurfaceImageExtent, hb]
  · intro heq
    have hb : (caps.currentExtent.width != UINT32_MAX) = false := by simpa using heq
    refine ⟨by simp [selectSwapchainSurfaceImageExtent, hb], ?_, ?_, ?_, ?_⟩ <;>
      simp [selectSwapchainSurfaceImageExtent, hb] <;> omega

/-- Witness for C8: the spec example — undefined current extent, window
(1920, 1080), bounds min (1, 1) and max (1024, 1024) — clamps to
(1024, 1024). -/
theorem selectSwapchainSurfaceImageExtent_spec_witness :
    (capsUndef.minImageExtent.width ≤ capsUndef.maxImageExtent.width) ∧
    (capsUndef.minImageExtent.height ≤ capsUndef.maxImageExtent.height) ∧
    ((capsUndef.currentExtent.width ≠ UINT32_MAX →
       selectSwapchainSurfaceImageExtent 1920 1080 capsUndef = capsUndef.currentExtent) ∧
     (capsUndef.currentExtent.width = UINT32_MAX →
       selectSwapchainSurfaceImageExtent 1920 1080 capsUndef =
         { width := Nat.max capsUndef.minImageExtent.width
             (Nat.min capsUndef.maxImageExtent.width 1920),
           height := Nat.max capsUndef.minImageExtent.height
             (Nat.min capsUndef.maxImageExtent.height 1080) } ∧
       capsUndef.minImageExtent.width ≤
         (selectSwapchainSurfaceImageExtent 1920 1080 capsUndef).width ∧
       (selectSwapchainSurfaceImageExtent 1920 1080 capsUndef).width ≤
         capsUndef.maxImageExtent.width ∧
       capsUndef.minImageExtent.height ≤
         (selectSwapchainSurfaceImageExtent 1920 1080 capsUndef).height ∧
       (selectSwapchainSurfaceImageExtent 1920 1080 capsUndef).height ≤
         capsUndef.maxImageExtent.height)) :=
  ⟨by decide, by decide,
    selectSwapchainSurfaceImageExtent_spec 1920 1080 capsUndef (by decide) (by decide)⟩

/-! ### Rating: swapchain hard disqualification (C4) -/

/-- C4: an adapter that does not advertise the swapchain extension rates 0,
regardless of every other attribute, of surface presence, and of the junk
value of the uninitialized flag. -/
theorem ratePhysicalDevice_noSwapchain_zero (dev : PhysicalDevice) (hs junk : Bool)
    (h : dev.extensions.any (fun e => e == VK_KHR_SWAPCHAIN_EXTENSION_NAME) = false) :
    ratePhysicalDevice dev hs junk = 0 := by
  cases hs <;> simp [ratePhysicalDevice, h, ite_self]

/-- Witness for C4: `devZero` has no extensions and rates 0 with a surface
present. -/
theorem ratePhysicalDevice_noSwapchain_zero_witness :
    (devZero.extensions.any (fun e => e == VK_KHR_SWAPCHAIN_EXTENSION_NAME) = false) ∧
    ratePhysicalDevice devZero true false = 0 :=
  ⟨by decide, ratePhysicalDevice_noSwapchain_zero devZero true false (by decide)⟩

/-! ### Rating: the presentation disqualification never fires (C3, C9) -/

/-- Behaviour of the presentation-support scan: on an empty family list it
returns the start index and the untouched flag; otherwise it either breaks
with the flag assigned `true` and the break index strictly inside the
list, or runs through with the flag assigned `false` and the index one
past the last family. -/
theorem presentScanGo_spec (queues : List QueueFamily) (i : Nat) (flag0 : Option Bool) :
    (presentScanGo queues i flag0 =
      (i + queues.length, if queues.isEmpty then flag0 else some false)) ∨
    (∃ j, presentScanGo queues i flag0 = (j, some true) ∧ j + 1 ≤ i + queues.length) := by
  induction queues generalizing i flag0 with
  | nil => left; simp [presentScanGo]
  | cons q rest ih =>
      rcases hq : q.presentSupport with _ | _
      · have hgoal : presentScanGo (q :: rest) i flag0 =
            presentScanGo rest (i + 1) (some false) := by
          simp [presentScanGo, hq]
        rcases ih (i + 1) (some false) with h1 | h1
        · left
          rw [hgoal, h1]
          simp only [List.isEmpty_cons, List.length_cons, Prod.mk.injEq, ite_self,
            Bool.false_eq_true, if_false]
          exact ⟨by omega, trivial⟩
        · right
          obtain ⟨j, hj, hjle⟩ := h1
          exact ⟨j, by rw [hgoal, hj], by simp only [List.length_cons]; omega⟩
      · right
        refine ⟨i, ?_, by simp⟩
        simp [presentScanGo, hq]

/-- C3 failing input: `devNoPresent` has no presentation-capable queue
family, yet with a surface supplied `RatePhysicalDevice` returns 210000
(graphics bonus 100000 plus presentation bonus 110000) instead of the 0
the disqualification rule demands: after an unsuccessful scan `i` equals
`queues.size()`, so the check `i+1 == queues.size()` is false and the
bonus branch is taken. -/
theorem ratePhysicalDevice_missedDisqualify :
    devNoPresent.queueFamilies.all (fun q => !q.presentSupport) = true ∧
    ratePhysicalDevice devNoPresent true false = 210000 := by decide

/-! ### Queue-scan bonuses accumulate per family (C5) -/

/-- Counterexample to C5: `devTwoGfx` differs from `devOneGfx` only by
duplicating the one graphics-capable queue family; both have at least one
graphics-capable family and identical remaining attributes, yet their
scores differ by a full extra graphics bonus — the bonus is not a fixed
presence-determined amount. -/
theorem ratePhysicalDevice_perFamilyBonus :
    ratePhysicalDevice devTwoGfx false false = 200000 ∧
    ratePhysicalDevice devOneGfx false false = 100000 ∧
    devTwoGfx.queueFamilies.any
      (fun q => q.queueFlags &&& VK_QUEUE_GRAPHICS_BIT != 0) = true ∧
    devOneGfx.queueFamilies.any
      (fun q => q.queueFlags &&& VK_QUEUE_GRAPHICS_BIT != 0) = true := by decide

/-- The graphics/compute contribution of a single queue family. -/
def queueFamilyBonus (q : QueueFamily) : Nat :=
  (if q.queueFlags &&& VK_QUEUE_GRAPHICS_BIT != 0 then 100000 else 0) +
  (if q.queueFlags &&& VK_QUEUE_COMPUTE_BIT != 0 then 50000 else 0)

/-- C5 as amended: the queue-family scan adds 100000 for **each**
graphics-capable family and 50000 for **each** compute-capable family —
the accumulated score is the incoming score plus the sum of the
per-family bonuses, reduced modulo `2^32`. -/
theorem scanQueueScore_sum (queues : List QueueFamily) (s : Nat) (h : s < U32) :
    scanQueueScore s queues = (s + (queues.map queueFamilyBonus).sum) % U32 := by
  induction queues generalizing s with
  | nil => simpa [scanQueueScore] using (Nat.mod_eq_of_lt h).symm
  | cons q rest ih =>
      have hU : 0 < U32 := by decide
      by_cases hg : (q.queueFlags &&& VK_QUEUE_GRAPHICS_BIT != 0) = true
      · by_cases hc : (q.queueFlags &&& VK_QUEUE_COMPUTE_BIT != 0) = true
        · have e1 : scanQueueScore s (q :: rest) =
              scanQueueScore (((s + 100000) % U32 + 50000) % U32) rest := by
            simp [scanQueueScore, hg, hc, u32]
          have eb : queueFamilyBonus q = 150000 := by simp [queueFamilyBonus, hg, hc]
          rw [e1, ih _ (Nat.mod_lt _ hU), List.map_cons, List.sum_cons, eb]
          simp only [U32]
          omega
        · have e1 : scanQueueScore s (q :: rest) =
              scanQueueScore ((s + 100000) % U32) rest := by
            simp [scanQueueScore, hg, hc, u32]
          have eb : queueFamilyBonus q = 100000 := by simp [queueFamilyBonus, hg, hc]
          rw [e1, ih _ (Nat.mod_lt _ hU), List.map_cons, List.sum_cons, eb]
          simp only [U32]
          omega
      · by_cases hc : (q.queueFlags &&& VK_QUEUE_COMPUTE_BIT != 0) = true
        · have e1 : scanQueueScore s (q :: rest) =
              scanQueueScore ((s + 50000) % U32) rest := by
            simp [scanQueueScore, hg, hc, u32]
          have eb : queueFamilyBonus q = 50000 := by simp [queueFamilyBonus, hg, hc]
          rw [e1, ih _ (Nat.mod_lt _ hU), List.map_cons, List.sum_cons, eb]
          simp only [U32]
          omega
        · have e1 : scanQueueScore s (q :: rest) = scanQueueScore s rest := by
            simp [scanQueueScore, hg, hc]
          have eb : queueFamilyBonus q = 0 := by simp [queueFamilyBonus, hg, hc]
          rw [e1, ih s h, List.map_cons, List.sum_cons, eb]
          simp only [U32]
          omega

/-- Witness for C5's amended statement: one graphics-and-compute family
contributes 150000 on top of a zero incoming score. -/
theorem scanQueueScore_sum_witness :
    (0 < U32) ∧
    scanQueueScore 0 [{ queueFlags := 3, presentSupport := false }] =
      (0 + ([({ queueFlags := 3, presentSupport := false } : QueueFamily)].map
        queueFamilyBonus).sum) % U32 :=
  ⟨by decide, scanQueueScore_sum [{ queueFlags := 3, presentSupport := false }] 0 (by decide)⟩

/-! ### The flag is never read uninitialized (C9) -/

/-- Counterexample to C9 as stated: there is **no** input on which the
post-loop check reads the presentation flag while it is uninitialized —
with no queue families the `&&` short-circuits before the read, and
otherwise the loop's last iteration assigned the flag. -/
theorem presentCheck_never_reads_uninit :
    ¬ ∃ queues : List QueueFamily, presentCheckReadsUninit queues = true := by
  rintro ⟨queues, hq⟩
  have hne : queues.length + 1 ≠ queues.length := by omega
  rcases presentScanGo_spec queues 0 none with h | ⟨j, hj, hjle⟩
  · rw [presentCheckReadsUninit, h] at hq
    simp [hne] at hq
  · rw [presentCheckReadsUninit, hj] at hq
    simp at hq

/-- C9 as amended: the flag is declared before the loop with no initializer
and assigned only inside the loop body, but the post-loop check never
reads an undefined value (empty list: the `&&` short-circuits; non-empty
list: the last iteration assigned the flag); moreover the tested condition
`i+1 == queues.size() && !presentationSupported` is false on every input
and junk value, so the score-zeroing branch is unreachable. -/
theorem presentScan_no_undefined_read (queues : List QueueFamily) (junk : Bool) :
    presentCheckReadsUninit queues = false ∧
    (((presentScanGo queues 0 none).1 + 1 == queues.length) &&
      !((presentScanGo queues 0 none).2.getD junk)) = false := by
  have hne : queues.length + 1 ≠ queues.length := by omega
  rcases presentScanGo_spec queues 0 none with h | ⟨j, hj, hjle⟩
  · constructor
    · rw [presentCheckReadsUninit, h]
      simp [hne]
    · rw [h]
      simp [hne]
  · constructor
    · rw [presentCheckReadsUninit, hj]
      simp
    · rw [hj]
      simp

/-! ### Queue-family index lookups (C10) -/

/-- `find?` over a list extended by one element on the right. -/
theorem find?_append_one {α : Type} (p : α → Bool) (l : List α) (a : α) :
    (l ++ [a]).find? p =
      match l.find? p with
      | some b => some b
      | none => if p a then some a else none := by
  induction l with
  | nil =>
      rcases hp : p a with _ | _ <;> simp [List.find?, hp]
  | cons x xs ih =>
      rcases hx : p x with _ | _
      · rw [List.cons_append, List.find?_cons_of_neg _ (by simp [hx]),
          List.find?_cons_of_neg _ (by simp [hx]), ih]
      · rw [List.cons_append, List.find?_cons_of_pos _ hx,
          List.find?_cons_of_pos _ hx]

/-- The loop of `GetPhysicalDeviceQueueFamilyIndex` computes the **last**
matching index: it equals a first-match search over the reversed
index-annotated list. -/
theorem queueFamilyIndexLoop_eq (flag : Nat) (props : List QueueFamily)
    (i : Nat) (idx : Int) :
    queueFamilyIndexLoop flag props i idx =
      match (List.enumFrom i props).reverse.find?
          (fun p => p.2.queueFlags &&& flag != 0) with
      | some p => (p.1 : Int)
      | none => idx := by
  induction props generalizing i idx with
  | nil => simp [queueFamilyIndexLoop]
  | cons q rest ih =>
      have h1 : (List.enumFrom i (q :: rest)).reverse =
          (List.enumFrom (i + 1) rest).reverse ++ [(i, q)] := by
        simp [List.enumFrom_cons, List.reverse_cons]
      rw [h1, find?_append_one]
      rw [show queueFamilyIndexLoop flag (q :: rest) i idx =
            queueFamilyIndexLoop flag rest (i + 1)
              (if q.queueFlags &&& flag != 0 then (i : Int) else idx) from rfl]
      rw [ih]
      rcases hf : (List.enumFrom (i + 1) rest).reverse.find?
          (fun p => p.2.queueFlags &&& flag != 0) with _ | p
      · rcases hq : (q.queueFlags &&& flag != 0) with _ | _ <;> simp [hq, hf]
      · simp [hf]

/-- The loop of `GetPhysicalDeviceSurfaceSupportQueueIndex` computes the
**first** presentation-supporting index. -/
theorem surfaceSupportIndexLoop_eq (queues : List QueueFamily) (i : Nat) :
    surfaceSupportIndexLoop queues i =
      match (List.enumFrom i queues).find? (fun p => p.2.presentSupport) with
      | some p => (p.1 : Int)
      | none => -1 := by
  induction queues generalizing i with
  | nil => simp [surfaceSupportIndexLoop]
  | cons q rest ih =>
      rcases hq : q.presentSupport with _ | _
      · have hskip : ((i, q) :: List.enumFrom (i + 1) rest).find?
            (fun p => p.2.presentSupport) =
            (List.enumFrom (i + 1) rest).find? (fun p => p.2.presentSupport) :=
          List.find?_cons_of_neg _ (by simp [hq])
        rw [show surfaceSupportIndexLoop (q :: rest) i =
              surfaceSupportIndexLoop rest (i + 1) from by
            simp [surfaceSupportIndexLoop, hq]]
        rw [ih, List.enumFrom_cons, hskip]
      · have hhit : ((i, q) :: List.enumFrom (i + 1) rest).find?
            (fun p => p.2.presentSupport) = some (i, q) :=
          List.find?_cons_of_pos _ (by simp [hq])
        rw [show surfaceSupportIndexLoop (q :: rest) i = (i : Int) from by
            simp [surfaceSupportIndexLoop, hq]]
        rw [List.enumFrom_cons, hhit]

/-- C10: `GetPhysicalDeviceQueueFamilyIndex` returns the index of the
**last** family whose flag bitmask intersects the requested flag (`-1`
when none matches: an empty reversed search), while
`GetPhysicalDeviceSurfaceSupportQueueIndex` stops at the **first**
presentation-supporting family. -/
theorem queueFamilyIndex_last_vs_first (props : List QueueFamily) (flag : Nat) :
    (getPhysicalDeviceQueueFamilyIndex props flag =
      match props.enum.reverse.find? (fun p => p.2.queueFlags &&& flag != 0) with
      | some p => (p.1 : Int)
      | none => -1) ∧
    (getPhysicalDeviceSurfaceSupportQueueIndex props =
      match props.enum.find? (fun p => p.2.presentSupport) with
      | some p => (p.1 : Int)
      | none => -1) := by
  constructor
  · rw [getPhysicalDeviceQueueFamilyIndex, queueFamilyIndexLoop_eq]
    rfl
  · rw [getPhysicalDeviceSurfaceSupportQueueIndex, surfaceSupportIndexLoop_eq]
    rfl

/-! ### Best-device selection (C1, C2) -/

/-- The running best score never decreases along the scan. -/
theorem selectScanLoop_le (hs junk : Bool) (ds : List PhysicalDevice) (s : Nat)
    (sel : Option PhysicalDevice) : s ≤ (selectScanLoop hs junk ds s sel).1 := by
  induction ds generalizing s sel with
  | nil => simp [selectScanLoop]
  | cons d0 rest ih =>
      by_cases hlt : s < ratePhysicalDevice d0 hs junk
      · have h1 := ih (ratePhysicalDevice d0 hs junk) (some d0)
        simp only [selectScanLoop]
        rw [if_pos hlt]
        omega
      · simp only [selectScanLoop]
        rw [if_neg hlt]
        exact ih s sel

/-- Every scanned candidate's score is bounded by the final best score. -/
theorem selectScanLoop_ub (hs junk : Bool) (ds : List PhysicalDevice) (s : Nat)
    (sel : Option PhysicalDevice) :
    ∀ d ∈ ds, ratePhysicalDevice d hs junk ≤ (selectScanLoop hs junk ds s sel).1 := by
  induction ds generalizing s sel with
  | nil => intro d hd; cases hd
  | cons d0 rest ih =>
      intro d hd
      rcases List.mem_cons.mp hd with hh | hh
      · subst hh
        by_cases hlt : s < ratePhysicalDevice d hs junk
        · simp only [selectScanLoop]
          rw [if_pos hlt]
          exact selectScanLoop_le hs junk rest _ _
        · simp only [selectScanLoop]
          rw [if_neg hlt]
          have h1 := selectScanLoop_le hs junk rest s sel
          omega
      · by_cases hlt : s < ratePhysicalDevice d0 hs junk
        · simp only [selectScanLoop]
          rw [if_pos hlt]
          exact ih _ _ d hh
        · simp only [selectScanLoop]
          rw [if_neg hlt]
          exact ih _ _ d hh

/-- The scan either leaves the accumulator untouched or ends at some
candidate's score with that candidate selected. -/
theorem selectScanLoop_cases (hs junk : Bool) (ds : List PhysicalDevice) (s : Nat)
    (sel : Option PhysicalDevice) :
    selectScanLoop hs junk ds s sel = (s, sel) ∨
    ∃ d, d ∈ ds ∧
      selectScanLoop hs junk ds s sel = (ratePhysicalDevice d hs junk, some d) := by
  induction ds generalizing s sel with
  | nil => left; rfl
  | cons d0 rest ih =>
      by_cases hlt : s < ratePhysicalDevice d0 hs junk
      · right
        have heq : selectScanLoop hs junk (d0 :: rest) s sel =
            selectScanLoop hs junk rest (ratePhysicalDevice d0 hs junk) (some d0) := by
          simp only [selectScanLoop]
          rw [if_pos hlt]
        rcases ih (ratePhysicalDevice d0 hs junk) (some d0) with h | ⟨d, hd, h⟩
        · exact ⟨d0, List.mem_cons_self d0 rest, by rw [heq, h]⟩
        · exact ⟨d, List.mem_cons_of_mem d0 hd, by rw [heq, h]⟩
      · have heq : selectScanLoop hs junk (d0 :: rest) s sel =
            selectScanLoop hs junk rest s sel := by
          simp only [selectScanLoop]
          rw [if_neg hlt]
        rcases ih s sel with h | ⟨d, hd, h⟩
        · left; rw [heq, h]
        · right; exact ⟨d, List.mem_cons_of_mem d0 hd, by rw [heq, h]⟩

/-- If the best score did not improve, the selection did not change. -/
theorem selectScanLoop_stay (hs junk : Bool) (ds : List PhysicalDevice) (s : Nat)
    (sel : Option PhysicalDevice) (h : (selectScanLoop hs junk ds s sel).1 = s) :
    selectScanLoop hs junk ds s sel = (s, sel) := by
  induction ds generalizing s sel with
  | nil => rfl
  | cons d0 rest ih =>
      by_cases hlt : s < ratePhysicalDevice d0 hs junk
      · exfalso
        have heq : selectScanLoop hs junk (d0 :: rest) s sel =
            selectScanLoop hs junk rest (ratePhysicalDevice d0 hs junk) (some d0) := by
          simp only [selectScanLoop]
          rw [if_pos hlt]
        have hle := selectScanLoop_le hs junk rest (ratePhysicalDevice d0 hs junk) (some d0)
        rw [heq] at h
        omega
      · have heq : selectScanLoop hs junk (d0 :: rest) s sel =
            selectScanLoop hs junk rest s sel := by
          simp only [selectScanLoop]
          rw [if_neg hlt]
        rw [heq] at h ⊢
        exact ih s sel h

/-- When the best score improved, the selected candidate is the **first**
list element attaining the final best score (strict `<` comparison:
first-encountered wins ties). -/
theorem selectScanLoop_first (hs junk : Bool) (ds : List PhysicalDevice) (s : Nat)
    (sel : Option PhysicalDevice) (h : s < (selectScanLoop hs junk ds s sel).1) :
    ∃ d, (selectScanLoop hs junk ds s sel).2 = some d ∧
      ds.find? (fun x => ratePhysicalDevice x hs junk ==
        (selectScanLoop hs junk ds s sel).1) = some d := by
  induction ds generalizing s sel with
  | nil => simp [selectScanLoop] at h
  | cons d0 rest ih =>
      by_cases hlt : s < ratePhysicalDevice d0 hs junk
      · have heq : selectScanLoop hs junk (d0 :: rest) s sel =
            selectScanLoop hs junk rest (ratePhysicalDevice d0 hs junk) (some d0) := by
          simp only [selectScanLoop]
          rw [if_pos hlt]
        by_cases h2 : ratePhysicalDevice d0 hs junk <
            (selectScanLoop hs junk rest (ratePhysicalDevice d0 hs junk) (some d0)).1
        · obtain ⟨d, hd2, hdf⟩ := ih (ratePhysicalDevice d0 hs junk) (some d0) h2
          refine ⟨d, by rw [heq]; exact hd2, ?_⟩
          rw [heq]
          have hne : (ratePhysicalDevice d0 hs junk ==
              (selectScanLoop hs junk rest (ratePhysicalDevice d0 hs junk)
                (some d0)).1) = false := by
            simp only [beq_eq_false_iff_ne]
            omega
          rw [List.find?_cons_of_neg _ (by simp [hne])]
          exact hdf
        · have hle := selectScanLoop_le hs junk rest (ratePhysicalDevice d0 hs junk) (some d0)
          have hMeq : (selectScanLoop hs junk rest (ratePhysicalDevice d0 hs junk)
              (some d0)).1 = ratePhysicalDevice d0 hs junk := by omega
          have hstay := selectScanLoop_stay hs junk rest
            (ratePhysicalDevice d0 hs junk) (some d0) hMeq
          refine ⟨d0, by rw [heq, hstay], ?_⟩
          rw [heq, hstay]
          exact List.find?_cons_of_pos _ (by simp)
      · have heq : selectScanLoop hs junk (d0 :: rest) s sel =
            selectScanLoop hs junk rest s sel := by
          simp only [selectScanLoop]
          rw [if_neg hlt]
        rw [heq] at h
        obtain ⟨d, hd2, hdf⟩ := ih s sel h
        refine ⟨d, by rw [heq]; exact hd2, ?_⟩
        rw [heq]
        have hne : (ratePhysicalDevice d0 hs junk ==
            (selectScanLoop hs junk rest s sel).1) = false := by
          simp only [beq_eq_false_iff_ne]
          omega
        rw [List.find?_cons_of_neg _ (by simp [hne])]
        exact hdf

/-- C1: `SelectBestPhysicalDevice` scans linearly keeping a running best
initialized to zero and replacing it only on a strictly greater score;
when at least one candidate scores positive, it returns a candidate with
strictly positive score that no other candidate strictly exceeds, namely
the first-encountered candidate attaining the best score. -/
theorem selectBestPhysicalDevice_spec (ds : List PhysicalDevice) (hs junk : Bool)
    (h : ∃ d ∈ ds, 0 < ratePhysicalDevice d hs junk) :
    ∃ d, selectBestPhysicalDevice ds hs junk = some d ∧ d ∈ ds ∧
      0 < ratePhysicalDevice d hs junk ∧
      (∀ x ∈ ds, ratePhysicalDevice x hs junk ≤ ratePhysicalDevice d hs junk) ∧
      ds.find? (fun x => ratePhysicalDevice x hs junk ==
        ratePhysicalDevice d hs junk) = some d := by
  obtain ⟨d0, hd0, hpos⟩ := h
  have hub := selectScanLoop_ub hs junk ds 0 none
  have hM : 0 < (selectScanLoop hs junk ds 0 none).1 :=
    lt_of_lt_of_le hpos (hub d0 hd0)
  obtain ⟨d, hd2, hdf⟩ := selectScanLoop_first hs junk ds 0 none hM
  have hdm : d ∈ ds := List.mem_of_find?_eq_some hdf
  have hdre : ratePhysicalDevice d hs junk = (selectScanLoop hs junk ds 0 none).1 := by
    simpa using List.find?_some hdf
  have hsel : selectBestPhysicalDevice ds hs junk = some d := by
    show (if (selectScanLoop hs junk ds 0 none).1 == 0 then none
          else (selectScanLoop hs junk ds 0 none).2) = some d
    have hz : ((selectScanLoop hs junk ds 0 none).1 == 0) = false := by
      simp only [beq_eq_false_iff_ne]
      omega
    rw [hz]
    simpa using hd2
  refine ⟨d, hsel, hdm, by omega, fun x hx => ?_, by rw [hdre]; exact hdf⟩
  have := hub x hx
  omega

/-- Witness for C1: on `[devZero, devOneGfx]` (scores 0 and 100000) the
selection conclusion holds. -/
theorem selectBestPhysicalDevice_spec_witness :
    (∃ d ∈ [devZero, devOneGfx], 0 < ratePhysicalDevice d false false) ∧
    (∃ d, selectBestPhysicalDevice [devZero, devOneGfx] false false = some d ∧
      d ∈ [devZero, devOneGfx] ∧ 0 < ratePhysicalDevice d false false ∧
      (∀ x ∈ [devZero, devOneGfx],
        ratePhysicalDevice x false false ≤ ratePhysicalDevice d false false) ∧
      [devZero, devOneGfx].find? (fun x => ratePhysicalDevice x false false ==
        ratePhysicalDevice d false false) = some d) :=
  ⟨by decide, selectBestPhysicalDevice_spec [devZero, devOneGfx] false false (by decide)⟩

/-- C2: when every candidate rates 0 (including the empty list),
`SelectBestPhysicalDevice` fails loudly (`none`, the assertion abort)
instead of returning the uninitialized selection, and it never returns a
zero-scored candidate. -/
theorem selectBestPhysicalDevice_allZero (ds : List PhysicalDevice) (hs junk : Bool) :
    ((∀ d ∈ ds, ratePhysicalDevice d hs junk = 0) →
      selectBestPhysicalDevice ds hs junk = none) ∧
    (∀ d, selectBestPhysicalDevice ds hs junk = some d →
      0 < ratePhysicalDevice d hs junk) := by
  have hsel : selectBestPhysicalDevice ds hs junk =
      (if (selectScanLoop hs junk ds 0 none).1 == 0 then none
       else (selectScanLoop hs junk ds 0 none).2) := rfl
  constructor
  · intro hz
    have h0 : (selectScanLoop hs junk ds 0 none).1 = 0 := by
      rcases selectScanLoop_cases hs junk ds 0 none with h | ⟨d, hd, h⟩
      · rw [h]
      · rw [h]
        exact hz d hd
    rw [hsel, h0]
    rfl
  · intro d hd
    rcases selectScanLoop_cases hs junk ds 0 none with h | ⟨d', hd', h⟩
    · rw [hsel, h] at hd
      simp at hd
    · rw [hsel, h] at hd
      by_cases hz : ratePhysicalDevice d' hs junk = 0
      · rw [hz] at hd
        simp at hd
      · have hb : ((ratePhysicalDevice d' hs junk == 0) : Bool) = false := by
          simp [hz]
        rw [hb] at hd
        simp only [Bool.false_eq_true, if_false, Option.some.injEq] at hd
        subst hd
        omega

/-- Witness for C2: the all-zero list `[devZero]` makes selection fail. -/
theorem selectBestPhysicalDevice_allZero_witness :
    selectBestPhysicalDevice [devZero] false false = none :=
  (selectBestPhysicalDevice_allZero [devZero] false false).1 (by decide)

end VulkanHelper
